import Mathlib

/-!
Shallow embedding of the social-graph core of the repository
(backend/storage.js, backend/routes/users.js, posts.js, follows.js,
likes.js, suggestions.js, feed.js, backend/seed.js).

Modelling conventions:
* JS objects keyed by id (`storage.users`, `storage.posts`) are modelled as
  insertion-ordered lists of records; keys created via uuidv4 are modelled as
  arbitrary fresh nonempty strings (uuid freshness/nonemptiness is a side
  condition of the step relation, not of the operation itself, mirroring the
  fact that the code relies on uuid uniqueness rather than checking it).
* JS arrays (`storage.follows`, `storage.likes`) are lists; `push` appends,
  `findIndex` + `splice` removes the first structurally-equal element.
* A missing/absent request body field (undefined) and the empty string are
  both falsy in JS; both are modelled as the empty string `""`.
* ISO timestamp strings compared through `new Date(...)` are modelled as
  natural numbers (epoch milliseconds).
* `res.status(400)` exits are `ApiErr.badRequest msg`, `res.status(404)`
  exits are `ApiErr.notFound msg`; an error exit leaves the store unchanged,
  exactly as the early `return` statements in the routes do.
-/

structure User where
  id : String
  username : String
  displayName : String
  bio : String
  profilePicUrl : Option String
  createdAt : Nat
deriving Repr, DecidableEq

structure Post where
  id : String
  authorId : String
  content : String
  mediaType : Option String
  mediaUrl : Option String
  createdAt : Nat
  likesCount : Int
deriving Repr, DecidableEq

structure Follow where
  followerId : String
  followeeId : String
deriving Repr, DecidableEq

structure Like where
  userId : String
  postId : String
deriving Repr, DecidableEq

/-- storage.js: the in-memory store. -/
structure Store where
  users : List User
  posts : List Post
  follows : List Follow
  likes : List Like
deriving Repr, DecidableEq

/-- storage.js `reset()`: all collections empty. -/
def Store.empty : Store := ⟨[], [], [], []⟩

/-- Transport-level failure of a route: `res.status(400)` (bad input /
conflicting state, both use 400 in this code base) or `res.status(404)`. -/
inductive ApiErr where
  | badRequest (msg : String)
  | notFound (msg : String)
deriving Repr, DecidableEq

/-- `storage.users[id]` — lookup in the id-keyed user object. -/
def lookupUser (s : Store) (id : String) : Option User :=
  s.users.find? (fun u => u.id == id)

/-- `storage.posts[id]` — lookup in the id-keyed post object. -/
def lookupPost (s : Store) (id : String) : Option Post :=
  s.posts.find? (fun p => p.id == id)

/-- JS `String.prototype.trim()`, as a kernel-computable function on the
character list of the string. -/
def jsTrim (s : String) : String :=
  String.mk (((s.data.dropWhile Char.isWhitespace).reverse.dropWhile
    Char.isWhitespace).reverse)

/-- JS `String.prototype.toLowerCase()`, as a kernel-computable character map. -/
def jsToLower (s : String) : String :=
  String.mk (s.data.map Char.toLower)

/-- JS `x || null` on an optional string field: empty string is falsy. -/
def jsOrNull (o : Option String) : Option String :=
  match o with
  | some v => if v = "" then none else some v
  | none => none

/-- routes/users.js `POST /api/users`: create a user.  `id` stands for the
uuidv4 value, `t` for `new Date().toISOString()`. -/
def createUser (s : Store) (id : String) (username displayName : String)
    (bio profilePicUrl : Option String) (t : Nat) : Option ApiErr × Store :=
  if jsTrim username = "" then
    (some (.badRequest "username is required"), s)
  else if jsTrim displayName = "" then
    (some (.badRequest "displayName is required"), s)
  else if s.users.any (fun u => jsToLower u.username == jsToLower (jsTrim username)) then
    (some (.badRequest "username already taken"), s)
  else
    (none, { s with users := s.users ++
      [{ id := id
         username := jsTrim username
         displayName := jsTrim displayName
         bio := jsTrim (bio.getD "")
         profilePicUrl := jsOrNull profilePicUrl
         createdAt := t }] })

/-- routes/posts.js `POST /api/posts`: create a post. -/
def createPost (s : Store) (id : String) (authorId content : String)
    (mediaType mediaUrl : Option String) (t : Nat) : Option ApiErr × Store :=
  if authorId = "" ∨ (lookupUser s authorId).isNone then
    (some (.badRequest "authorId is missing or does not refer to a valid user"), s)
  else if jsTrim content = "" then
    (some (.badRequest "content is required"), s)
  else if mediaType.any (fun m => !(m == "image" || m == "video")) then
    (some (.badRequest "mediaType must be image, video, or null"), s)
  else
    (none, { s with posts := s.posts ++
      [{ id := id
         authorId := authorId
         content := jsTrim content
         mediaType := jsOrNull mediaType
         mediaUrl := jsOrNull mediaUrl
         createdAt := t
         likesCount := 0 }] })

/-- routes/posts.js `DELETE /api/posts/:id`: delete a post, cascading to the
likes that reference it. -/
def deletePost (s : Store) (postId : String) : Option ApiErr × Store :=
  match lookupPost s postId with
  | none => (some (.notFound "post not found"), s)
  | some _ =>
    (none, { s with
              likes := s.likes.filter (fun l => !(l.postId == postId))
              posts := s.posts.filter (fun p => !(p.id == postId)) })

/-- routes/follows.js `POST /api/follow`. -/
def follow (s : Store) (followerId followeeId : String) : Option ApiErr × Store :=
  if followerId = "" ∨ followeeId = "" then
    (some (.badRequest "followerId and followeeId are required"), s)
  else if followerId = followeeId then
    (some (.badRequest "a user cannot follow themselves"), s)
  else if (lookupUser s followerId).isNone then
    (some (.notFound "follower user not found"), s)
  else if (lookupUser s followeeId).isNone then
    (some (.notFound "followee user not found"), s)
  else if s.follows.any (fun f => f.followerId == followerId && f.followeeId == followeeId) then
    (some (.badRequest "already following this user"), s)
  else
    (none, { s with follows := s.follows ++ [⟨followerId, followeeId⟩] })

/-- routes/follows.js `DELETE /api/follow`: `findIndex` + `splice(index, 1)`
removes the first structurally-equal edge. -/
def unfollow (s : Store) (followerId followeeId : String) : Option ApiErr × Store :=
  if followerId = "" ∨ followeeId = "" then
    (some (.badRequest "followerId and followeeId are required"), s)
  else if ¬ s.follows.any (fun f => f.followerId == followerId && f.followeeId == followeeId) then
    (some (.notFound "follow relationship not found"), s)
  else
    (none, { s with follows := s.follows.erase ⟨followerId, followeeId⟩ })

/-- routes/likes.js `POST /api/posts/:id/like`. -/
def like (s : Store) (postId userId : String) : Option ApiErr × Store :=
  if userId = "" then
    (some (.badRequest "userId is required"), s)
  else
    match lookupPost s postId with
    | none => (some (.notFound "post not found"), s)
    | some _ =>
      if (lookupUser s userId).isNone then
        (some (.notFound "user not found"), s)
      else if s.likes.any (fun l => l.userId == userId && l.postId == postId) then
        (some (.badRequest "post already liked by this user"), s)
      else
        (none, { s with
                  likes := s.likes ++ [⟨userId, postId⟩]
                  posts := s.posts.map (fun p =>
                    if p.id == postId then { p with likesCount := p.likesCount + 1 } else p) })

/-- routes/likes.js `DELETE /api/posts/:id/like`: remove the first matching
like edge and floor the counter at zero (`Math.max(0, likesCount - 1)`). -/
def unlike (s : Store) (postId userId : String) : Option ApiErr × Store :=
  if userId = "" then
    (some (.badRequest "userId is required"), s)
  else
    match lookupPost s postId with
    | none => (some (.notFound "post not found"), s)
    | some _ =>
      if ¬ s.likes.any (fun l => l.userId == userId && l.postId == postId) then
        (some (.notFound "like not found"), s)
      else
        (none, { s with
                  likes := s.likes.erase ⟨userId, postId⟩
                  posts := s.posts.map (fun p =>
                    if p.id == postId then { p with likesCount := max 0 (p.likesCount - 1) } else p) })

/-! ### Graph queries -/

/-- The raw followee-id list of a user:
`storage.follows.filter(f => f.followerId === userId).map(f => f.followeeId)`. -/
def followeesOf (s : Store) (userId : String) : List String :=
  (s.follows.filter (fun f => f.followerId == userId)).map (fun f => f.followeeId)

/-- routes/users.js `GET /api/users/:id/followers`: resolved follower user
objects, dangling ids dropped by `.filter(Boolean)`. -/
def followersOf (s : Store) (userId : String) : List User :=
  ((s.follows.filter (fun f => f.followeeId == userId)).map
    (fun f => lookupUser s f.followerId)).reduceOption

/-- routes/users.js `GET /api/users/:id/following`: resolved followee user
objects, dangling ids dropped. -/
def followingOf (s : Store) (userId : String) : List User :=
  ((s.follows.filter (fun f => f.followerId == userId)).map
    (fun f => lookupUser s f.followeeId)).reduceOption

/-- routes/users.js `GET /api/users/:id`: follower count scans raw edges. -/
def followerCount (s : Store) (userId : String) : Nat :=
  (s.follows.filter (fun f => f.followeeId == userId)).length

/-- routes/users.js `GET /api/users/:id`: following count scans raw edges. -/
def followingCount (s : Store) (userId : String) : Nat :=
  (s.follows.filter (fun f => f.followerId == userId)).length

/-- A JS `Set` built from a list: keeps the first occurrence of each element,
iteration order is insertion order. -/
def jsSet (l : List String) : List String :=
  l.foldl (fun acc x => if x ∈ acc then acc else acc ++ [x]) []

/-- `mutualCounts[c] = (mutualCounts[c] || 0) + 1` on a JS object modelled as
an insertion-ordered association list: update in place, or append `(k, 1)`. -/
def bump (m : List (String × Nat)) (k : String) : List (String × Nat) :=
  match m with
  | [] => [(k, 1)]
  | e :: rest => if e.1 = k then (e.1, e.2 + 1) :: rest else e :: bump rest k

/-- Value of a key in a JS object modelled as an association list
(0 when absent, as in `mutualCounts[c] || 0`). -/
def valAt : List (String × Nat) → String → Nat
  | [], _ => 0
  | e :: t, k => if e.1 = k then e.2 else valAt t k

/-- routes/feed.js `GET /api/feed/:userId` body (after the 404 guard):
posts of followed authors, newest first (stable sort by descending
`createdAt`), each with its resolved author (or null). -/
def buildFeed (s : Store) (userId : String) : List (Post × Option User) :=
  let followingIds := jsSet (followeesOf s userId)
  ((s.posts.filter (fun p => followingIds.contains p.authorId)).insertionSort
      (fun a b => b.createdAt ≤ a.createdAt)).map
    (fun p => (p, lookupUser s p.authorId))

/-- routes/feed.js `GET /api/feed/:userId` with its 404 guard. -/
def feedRoute (s : Store) (userId : String) : Except ApiErr (List (Post × Option User)) :=
  if (lookupUser s userId).isNone then .error (.notFound "user not found")
  else .ok (buildFeed s userId)

/-! ### Suggestion ranking — translation of routes/likes.js `computeSuggestions`
(the suggestions router) -/

/-- The tally loop of `computeSuggestions`: for every already-followed
`followeeId` (in set-iteration order), walk the edges out of that followee and
bump the count of each candidate that is neither the user nor already
followed. -/
def suggestionTally (follows : List Follow) (userId : String)
    (alreadyFollowing : List String) : List (String × Nat) :=
  alreadyFollowing.foldl (fun m followeeId =>
    (follows.filter (fun f => f.followerId == followeeId)).foldl (fun m2 f =>
      if f.followeeId = userId ∨ f.followeeId ∈ alreadyFollowing then m2
      else bump m2 f.followeeId) m) []

/-- The zero-fill loop of `computeSuggestions`: every user id not excluded and
not already tallied is inserted with count 0, in `Object.keys` order. -/
def suggestionFill (users : List User) (userId : String)
    (alreadyFollowing : List String) (m : List (String × Nat)) : List (String × Nat) :=
  users.foldl (fun m2 u =>
    if u.id = userId ∨ u.id ∈ alreadyFollowing then m2
    else if (m2.find? (fun e => e.1 == u.id)).isSome then m2
    else m2 ++ [(u.id, 0)]) m

/-- routes/likes.js (suggestions router) `computeSuggestions(userId)`:
tally 2-hop candidates, fill zeroes, stable-sort by count descending
(`Object.entries(...).sort((a, b) => b[1] - a[1])`), resolve user objects. -/
def computeSuggestions (s : Store) (userId : String) : List (Option User × Nat) :=
  let alreadyFollowing := jsSet
    ((s.follows.filter (fun f => f.followerId == userId)).map (fun f => f.followeeId))
  let mutualCounts := suggestionTally s.follows userId alreadyFollowing
  let filled := suggestionFill s.users userId alreadyFollowing mutualCounts
  (filled.insertionSort (fun a b => b.2 ≤ a.2)).map
    (fun e => (lookupUser s e.1, e.2))

/-- routes/likes.js `GET /api/suggestions/:id` with its 404 guard. -/
def suggestionsRoute (s : Store) (id : String) :
    Except ApiErr (List (Option User × Nat)) :=
  if (lookupUser s id).isNone then .error (.notFound "user not found")
  else .ok (computeSuggestions s id)

/-! ### Suggestion ranking — independent translation of the inline logic in
routes/users.js `GET /api/users/:id/suggestions` -/

/-- Tally loop of the users-router suggestion logic. -/
def usersSuggestionTally (follows : List Follow) (userId : String)
    (alreadyFollowing : List String) : List (String × Nat) :=
  alreadyFollowing.foldl (fun m followeeId =>
    (follows.filter (fun f => f.followerId == followeeId)).foldl (fun m2 f =>
      if f.followeeId = userId ∨ f.followeeId ∈ alreadyFollowing then m2
      else bump m2 f.followeeId) m) []

/-- Zero-fill loop of the users-router suggestion logic. -/
def usersSuggestionFill (users : List User) (userId : String)
    (alreadyFollowing : List String) (m : List (String × Nat)) : List (String × Nat) :=
  users.foldl (fun m2 u =>
    if u.id = userId ∨ u.id ∈ alreadyFollowing then m2
    else if (m2.find? (fun e => e.1 == u.id)).isSome then m2
    else m2 ++ [(u.id, 0)]) m

/-- routes/users.js `GET /api/users/:id/suggestions` body (after the 404
guard). -/
def usersSuggestions (s : Store) (userId : String) : List (Option User × Nat) :=
  let alreadyFollowing := jsSet
    ((s.follows.filter (fun f => f.followerId == userId)).map (fun f => f.followeeId))
  let mutualCounts := usersSuggestionTally s.follows userId alreadyFollowing
  let filled := usersSuggestionFill s.users userId alreadyFollowing mutualCounts
  (filled.insertionSort (fun a b => b.2 ≤ a.2)).map
    (fun e => (lookupUser s e.1, e.2))

/-- routes/users.js `GET /api/users/:id/suggestions` with its 404 guard. -/
def usersSuggestionsRoute (s : Store) (id : String) :
    Except ApiErr (List (Option User × Nat)) :=
  if (lookupUser s id).isNone then .error (.notFound "user not found")
  else .ok (usersSuggestions s id)

/-! ### Seed data (backend/seed.js) -/

/-- seed.js `minutesAgo(n)` relative to the current time `now` (epoch ms). -/
def minutesAgo (now n : Nat) : Nat := now - n * 60000

/-- seed.js: the six sample users. -/
def seedUsers (now : Nat) : List User :=
  [ { id := "user-alice-0001", username := "alice", displayName := "Alice Wonderland",
      bio := "Curiouser and curiouser! 🐇",
      profilePicUrl := some "https://i.pravatar.cc/150?u=alice", createdAt := minutesAgo now 120 },
    { id := "user-bob-0002", username := "bob", displayName := "Bob Builder",
      bio := "Can we fix it? Yes we can! 🔨",
      profilePicUrl := some "https://i.pravatar.cc/150?u=bob", createdAt := minutesAgo now 110 },
    { id := "user-carol-0003", username := "carol", displayName := "Carol Danvers",
      bio := "Higher, further, faster. 🚀",
      profilePicUrl := some "https://i.pravatar.cc/150?u=carol", createdAt := minutesAgo now 100 },
    { id := "user-dave-0004", username := "dave", displayName := "Dave Grohl",
      bio := "Music is the answer 🎸",
      profilePicUrl := some "https://i.pravatar.cc/150?u=dave", createdAt := minutesAgo now 90 },
    { id := "user-eve-0005", username := "eve", displayName := "Eve Online",
      bio := "Always watching the network 👁️",
      profilePicUrl := some "https://i.pravatar.cc/150?u=eve", createdAt := minutesAgo now 80 },
    { id := "user-frank-0006", username := "frank", displayName := "Frank Ocean",
      bio := "Blonde vibes only 🌊",
      profilePicUrl := some "https://i.pravatar.cc/150?u=frank", createdAt := minutesAgo now 70 } ]

/-- seed.js: the nine sample posts, created with `likesCount := 0`. -/
def seedPosts (now : Nat) : List Post :=
  [ { id := "post-0001", authorId := "user-alice-0001",
      content := "Just had the best cup of coffee ☕ — good morning, world!",
      mediaType := none, mediaUrl := none, createdAt := minutesAgo now 60, likesCount := 0 },
    { id := "post-0002", authorId := "user-bob-0002",
      content := "Finished building a bookshelf today. Proud of myself! 💪",
      mediaType := none, mediaUrl := none, createdAt := minutesAgo now 55, likesCount := 0 },
    { id := "post-0003", authorId := "user-carol-0003",
      content := "Flying at 30,000 feet and the view is absolutely breathtaking 🌤️",
      mediaType := none, mediaUrl := none, createdAt := minutesAgo now 50, likesCount := 0 },
    { id := "post-0004", authorId := "user-dave-0004",
      content := "Sunset jam session 🎸🌅", mediaType := some "image",
      mediaUrl := some "https://picsum.photos/seed/guitar/800/600",
      createdAt := minutesAgo now 45, likesCount := 0 },
    { id := "post-0005", authorId := "user-eve-0005",
      content := "My home lab setup — new rack arrived! 🖥️", mediaType := some "image",
      mediaUrl := some "https://picsum.photos/seed/server/800/600",
      createdAt := minutesAgo now 40, likesCount := 0 },
    { id := "post-0006", authorId := "user-frank-0006",
      content := "Ocean view from the studio 🌊", mediaType := some "image",
      mediaUrl := some "https://picsum.photos/seed/ocean/800/600",
      createdAt := minutesAgo now 35, likesCount := 0 },
    { id := "post-0007", authorId := "user-alice-0001",
      content := "Reading \"Alice in Wonderland\" for the hundredth time. Still magical ✨",
      mediaType := none, mediaUrl := none, createdAt := minutesAgo now 30, likesCount := 0 },
    { id := "post-0008", authorId := "user-bob-0002",
      content := "Time-lapse of the bookshelf build 🎬", mediaType := some "video",
      mediaUrl := some "https://www.w3schools.com/html/mov_bbb.mp4",
      createdAt := minutesAgo now 25, likesCount := 0 },
    { id := "post-0009", authorId := "user-carol-0003",
      content := "Back on the ground. Next mission: the fridge 🍕",
      mediaType := none, mediaUrl := none, createdAt := minutesAgo now 10, likesCount := 0 } ]

/-- seed.js: the eight follow relationships. -/
def seedFollows : List Follow :=
  [ ⟨"user-alice-0001", "user-bob-0002"⟩,
    ⟨"user-alice-0001", "user-carol-0003"⟩,
    ⟨"user-alice-0001", "user-dave-0004"⟩,
    ⟨"user-bob-0002", "user-alice-0001"⟩,
    ⟨"user-bob-0002", "user-carol-0003"⟩,
    ⟨"user-carol-0003", "user-dave-0004"⟩,
    ⟨"user-eve-0005", "user-alice-0001"⟩,
    ⟨"user-eve-0005", "user-frank-0006"⟩ ]

/-- seed.js: the five like relationships, applied by pushing the edge and
incrementing the owning post's counter, exactly as the forEach loop does. -/
def seedLikeRels : List Like :=
  [ ⟨"user-bob-0002", "post-0001"⟩,
    ⟨"user-carol-0003", "post-0001"⟩,
    ⟨"user-alice-0001", "post-0004"⟩,
    ⟨"user-eve-0005", "post-0004"⟩,
    ⟨"user-dave-0004", "post-0009"⟩ ]

/-- seed.js `seed()` applied to the empty store at time `now`. -/
def seedStore (now : Nat) : Store :=
  seedLikeRels.foldl
    (fun st lr =>
      { st with
          likes := st.likes ++ [lr]
          posts := st.posts.map (fun p =>
            if p.id == lr.postId then { p with likesCount := p.likesCount + 1 } else p) })
    { users := seedUsers now, posts := seedPosts now, follows := seedFollows, likes := [] }

/-! ### The step relation: one API operation -/

/-- One mutating API call against the store.  For `createUser`/`createPost`
the generated uuidv4 id is modelled as an arbitrary fresh nonempty string
(uuids are unique and nonempty). -/
inductive Step : Store → Store → Prop where
  | stepCreateUser (s : Store) (id username displayName : String)
      (bio profilePicUrl : Option String) (t : Nat)
      (hid : id ≠ "") (hfresh : ∀ u ∈ s.users, u.id ≠ id) :
      Step s (createUser s id username displayName bio profilePicUrl t).2
  | stepCreatePost (s : Store) (id authorId content : String)
      (mediaType mediaUrl : Option String) (t : Nat)
      (hid : id ≠ "") (hfresh : ∀ p ∈ s.posts, p.id ≠ id) :
      Step s (createPost s id authorId content mediaType mediaUrl t).2
  | stepDeletePost (s : Store) (postId : String) :
      Step s (deletePost s postId).2
  | stepFollow (s : Store) (a b : String) : Step s (follow s a b).2
  | stepUnfollow (s : Store) (a b : String) : Step s (unfollow s a b).2
  | stepLike (s : Store) (postId userId : String) : Step s (like s postId userId).2
  | stepUnlike (s : Store) (postId userId : String) : Step s (unlike s postId userId).2
  | stepReset (s : Store) : Step s Store.empty

/-- Store states reachable through the API: from the empty store or the
seeded store, by any sequence of operations. -/
inductive Reachable : Store → Prop where
  | empty : Reachable Store.empty
  | seeded (now : Nat) : Reachable (seedStore now)
  | step {s s2 : Store} : Reachable s → Step s s2 → Reachable s2

/-- The structural invariant maintained by every operation. -/
structure Invariant (s : Store) : Prop where
  usersNodup : (s.users.map User.id).Nodup
  userIdNe : ∀ u ∈ s.users, u.id ≠ ""
  followIrrefl : ∀ f ∈ s.follows, f.followerId ≠ f.followeeId
  followNodup : s.follows.Nodup
  followerMem : ∀ f ∈ s.follows, f.followerId ∈ s.users.map User.id
  followeeMem : ∀ f ∈ s.follows, f.followeeId ∈ s.users.map User.id
  likePostMem : ∀ l ∈ s.likes, l.postId ∈ s.posts.map Post.id
  likesCountEq : ∀ p ∈ s.posts, p.likesCount = (s.likes.countP (fun l => l.postId == p.id) : Int)

/-! ### Generic list helpers -/

/-- Invariant preservation along a left fold. -/
theorem foldl_invariant {α β : Type} (P : β → Prop) (g : β → α → β) (l : List α)
    (b : β) (h0 : P b) (hs : ∀ b2 a, a ∈ l → P b2 → P (g b2 a)) :
    P (l.foldl g b) := by
  induction l generalizing b with
  | nil => exact h0
  | cons x t ih =>
    exact ih (g b x) (hs b x (List.mem_cons_self x t) h0)
      (fun b2 a ha => hs b2 a (List.mem_cons_of_mem x ha))

/-- `find?` keyed by an injective-on-the-list key: on a list whose keys are
distinct, searching for the key of a member returns that member. -/
theorem find?_key_of_mem {α : Type} (key : α → String) {l : List α} {u : α}
    (hnd : (l.map key).Nodup) (hm : u ∈ l) :
    l.find? (fun x => key x == key u) = some u := by
  induction l with
  | nil => cases hm
  | cons h t ih =>
    rw [List.map_cons, List.nodup_cons] at hnd
    rcases List.mem_cons.mp hm with rfl | hmt
    · exact List.find?_cons_of_pos _ (by simp)
    · have hne : key h ≠ key u := by
        intro he
        exact hnd.1 (he ▸ List.mem_map_of_mem key hmt)
      rw [List.find?_cons_of_neg _ (by simp [hne])]
      exact ih hnd.2 hmt

/-- All elements of a list of options being `some` makes `reduceOption`
length-preserving. -/
theorem reduceOption_length_of_all_some {α : Type} {l : List (Option α)}
    (h : ∀ x ∈ l, x.isSome) : l.reduceOption.length = l.length := by
  induction l with
  | nil => rfl
  | cons x t ih =>
    rcases Option.isSome_iff_exists.mp (h x (List.mem_cons_self x t)) with ⟨a, rfl⟩
    rw [List.reduceOption_cons_of_some, List.length_cons, List.length_cons,
      ih (fun y hy => h y (List.mem_cons_of_mem _ hy))]

/-! ### jsSet lemmas -/

theorem mem_jsSetAdd {x y : String} {acc : List String} :
    x ∈ (if y ∈ acc then acc else acc ++ [y]) ↔ x ∈ acc ∨ x = y := by
  by_cases hy : y ∈ acc
  · rw [if_pos hy]
    constructor
    · exact Or.inl
    · rintro (h | rfl)
      · exact h
      · exact hy
  · rw [if_neg hy, List.mem_append, List.mem_singleton]

theorem mem_jsSet_foldl (x : String) (l : List String) :
    ∀ acc : List String,
      (x ∈ l.foldl (fun acc x => if x ∈ acc then acc else acc ++ [x]) acc ↔
        x ∈ acc ∨ x ∈ l) := by
  induction l with
  | nil => intro acc; simp
  | cons y t ih =>
    intro acc
    rw [List.foldl_cons, ih, mem_jsSetAdd, List.mem_cons]
    tauto

/-- Membership in the JS set is membership in the underlying list. -/
theorem mem_jsSet {x : String} {l : List String} : x ∈ jsSet l ↔ x ∈ l := by
  rw [jsSet, mem_jsSet_foldl]
  simp

/-- The JS set has no duplicates. -/
theorem nodup_jsSet (l : List String) : (jsSet l).Nodup := by
  refine foldl_invariant List.Nodup _ l [] List.nodup_nil ?_
  intro acc y _ hacc
  by_cases hy : y ∈ acc
  · simpa [hy] using hacc
  · rw [if_neg hy]
    exact List.Nodup.append hacc (List.nodup_singleton y)
      (fun a ha hb => hy ((List.mem_singleton.mp hb) ▸ ha))

/-! ### bump / valAt lemmas -/

theorem bump_keys_mem : ∀ {m : List (String × Nat)} {k j : String},
    j ∈ (bump m k).map Prod.fst ↔ j ∈ m.map Prod.fst ∨ j = k := by
  intro m k j
  induction m with
  | nil => simp [bump]
  | cons e t ih =>
    rw [bump]
    by_cases he : e.1 = k
    · rw [if_pos he]
      simp only [List.map_cons, List.mem_cons]
      constructor
      · rintro (h | h)
        · exact Or.inl (Or.inl h)
        · exact Or.inl (Or.inr h)
      · rintro ((h | h) | rfl)
        · exact Or.inl h
        · exact Or.inr h
        · exact Or.inl he.symm
    · rw [if_neg he]
      simp only [List.map_cons, List.mem_cons, ih]
      tauto

theorem bump_keys_nodup {m : List (String × Nat)} {k : String}
    (h : (m.map Prod.fst).Nodup) : ((bump m k).map Prod.fst).Nodup := by
  induction m with
  | nil => simp [bump]
  | cons e t ih =>
    rw [List.map_cons, List.nodup_cons] at h
    rw [bump]
    by_cases he : e.1 = k
    · rw [if_pos he, List.map_cons, List.nodup_cons]
      exact h
    · rw [if_neg he, List.map_cons, List.nodup_cons]
      refine ⟨fun hmem => ?_, ih h.2⟩
      rcases bump_keys_mem.mp hmem with hold | rfl
      · exact h.1 hold
      · exact he rfl

theorem valAt_bump : ∀ (m : List (String × Nat)) (k j : String),
    valAt (bump m k) j = valAt m j + (if j = k then 1 else 0) := by
  intro m k j
  induction m with
  | nil =>
    by_cases hj : j = k
    · subst hj
      simp [bump, valAt]
    · have : ¬ k = j := fun h => hj h.symm
      simp [bump, valAt, this, hj]
  | cons e t ih =>
    rw [bump]
    by_cases he : e.1 = k
    · rw [if_pos he]
      by_cases h1 : e.1 = j
      · have hjk : j = k := h1 ▸ he
        simp [valAt, h1, hjk]
      · have hjk : ¬ j = k := fun h => h1 (he.symm ▸ h.symm ▸ rfl)
        simp [valAt, h1, hjk]
    · rw [if_neg he]
      by_cases h1 : e.1 = j
      · have hjk : ¬ j = k := fun h => he (h1.symm ▸ h ▸ rfl)
        simp [valAt, h1, hjk]
      · simp only [valAt, if_neg h1]
        exact ih

theorem valAt_eq_zero_of_not_mem : ∀ {m : List (String × Nat)} {j : String},
    j ∉ m.map Prod.fst → valAt m j = 0 := by
  intro m j h
  induction m with
  | nil => rfl
  | cons e t ih =>
    simp only [List.map_cons, List.mem_cons, not_or] at h
    rw [valAt, if_neg (fun he => h.1 he.symm)]
    exact ih h.2

/-- On an association list with distinct keys, a member entry determines the
value at its key. -/
theorem valAt_of_mem : ∀ {m : List (String × Nat)} {e : String × Nat},
    (m.map Prod.fst).Nodup → e ∈ m → valAt m e.1 = e.2 := by
  intro m e hnd hm
  induction m with
  | nil => cases hm
  | cons h t ih =>
    rw [List.map_cons, List.nodup_cons] at hnd
    rcases List.mem_cons.mp hm with rfl | hmt
    · rw [valAt, if_pos rfl]
    · have hne : ¬ h.1 = e.1 := by
        intro heq
        exact hnd.1 (heq ▸ List.mem_map_of_mem Prod.fst hmt)
      rw [valAt, if_neg hne]
      exact ih hnd.2 hmt

/-- `find?` by key succeeds exactly when the key is present. -/
theorem findKey_isSome {m : List (String × Nat)} {k : String} :
    (m.find? (fun e => e.1 == k)).isSome ↔ k ∈ m.map Prod.fst := by
  rw [List.find?_isSome]
  simp only [List.mem_map, beq_iff_eq]

/-! ### Store lookup lemmas -/

theorem lookupUser_isSome_iff {s : Store} {id : String} :
    (lookupUser s id).isSome ↔ id ∈ s.users.map User.id := by
  rw [lookupUser, List.find?_isSome]
  simp only [List.mem_map, beq_iff_eq]

theorem lookupUser_eq_some_of_mem {s : Store} {u : User}
    (hnd : (s.users.map User.id).Nodup) (hm : u ∈ s.users) :
    lookupUser s u.id = some u :=
  find?_key_of_mem User.id hnd hm

theorem lookupUser_mem {s : Store} {id : String} {u : User}
    (h : lookupUser s id = some u) : u ∈ s.users ∧ u.id = id := by
  refine ⟨List.mem_of_find?_eq_some h, ?_⟩
  have := List.find?_some h
  simpa [beq_iff_eq] using this

theorem lookupPost_isSome_iff {s : Store} {id : String} :
    (lookupPost s id).isSome ↔ id ∈ s.posts.map Post.id := by
  rw [lookupPost, List.find?_isSome]
  simp only [List.mem_map, beq_iff_eq]

theorem lookupPost_mem {s : Store} {id : String} {p : Post}
    (h : lookupPost s id = some p) : p ∈ s.posts ∧ p.id = id := by
  refine ⟨List.mem_of_find?_eq_some h, ?_⟩
  have := List.find?_some h
  simpa [beq_iff_eq] using this

/-- A positive `any` over the like-edge predicate names the structural edge. -/
theorem like_mem_of_any {likes : List Like} {u p : String}
    (h : likes.any (fun l => l.userId == u && l.postId == p)) :
    (⟨u, p⟩ : Like) ∈ likes := by
  rcases List.any_eq_true.mp h with ⟨l, hm, hl⟩
  rw [Bool.and_eq_true, beq_iff_eq, beq_iff_eq] at hl
  obtain ⟨h1, h2⟩ := hl
  cases l
  cases h1
  cases h2
  exact hm

/-- A positive `any` over the follow-edge predicate names the structural edge. -/
theorem follow_mem_of_any {follows : List Follow} {a b : String}
    (h : follows.any (fun f => f.followerId == a && f.followeeId == b)) :
    (⟨a, b⟩ : Follow) ∈ follows := by
  rcases List.any_eq_true.mp h with ⟨f, hm, hf⟩
  rw [Bool.and_eq_true, beq_iff_eq, beq_iff_eq] at hf
  obtain ⟨h1, h2⟩ := hf
  cases f
  cases h1
  cases h2
  exact hm

/-- Membership of the structural edge makes the `any` positive. -/
theorem follow_any_of_mem {follows : List Follow} {a b : String}
    (h : (⟨a, b⟩ : Follow) ∈ follows) :
    follows.any (fun f => f.followerId == a && f.followeeId == b) :=
  List.any_eq_true.mpr ⟨⟨a, b⟩, h, by simp⟩

theorem like_any_of_mem {likes : List Like} {u p : String}
    (h : (⟨u, p⟩ : Like) ∈ likes) :
    likes.any (fun l => l.userId == u && l.postId == p) :=
  List.any_eq_true.mpr ⟨⟨u, p⟩, h, by simp⟩

/-! ### Invariant preservation -/

theorem invariant_createUser (s : Store) (id username displayName : String)
    (bio profilePicUrl : Option String) (t : Nat)
    (hid : id ≠ "") (hfresh : ∀ u ∈ s.users, u.id ≠ id) (hs : Invariant s) :
    Invariant (createUser s id username displayName bio profilePicUrl t).2 := by
  obtain ⟨nd, ne, irr, fnd, fmem, gmem, lmem, lcnt⟩ := hs
  rw [createUser]
  split_ifs with h1 h2 h3
  · exact ⟨nd, ne, irr, fnd, fmem, gmem, lmem, lcnt⟩
  · exact ⟨nd, ne, irr, fnd, fmem, gmem, lmem, lcnt⟩
  · exact ⟨nd, ne, irr, fnd, fmem, gmem, lmem, lcnt⟩
  · refine ⟨?_, ?_, irr, fnd, ?_, ?_, lmem, lcnt⟩ <;> dsimp only
    · rw [List.map_append]
      refine nd.append (by simp) ?_
      intro a ha hb
      simp only [List.map_cons, List.map_nil, List.mem_singleton] at hb
      rw [List.mem_map] at ha
      obtain ⟨u, hu, rfl⟩ := ha
      exact hfresh u hu hb
    · intro u hu
      rcases List.mem_append.mp hu with h | h
      · exact ne u h
      · rcases List.mem_singleton.mp h with rfl
        exact hid
    · intro f hf
      rw [List.map_append]
      exact List.mem_append_left _ (fmem f hf)
    · intro f hf
      rw [List.map_append]
      exact List.mem_append_left _ (gmem f hf)

theorem invariant_createPost (s : Store) (id authorId content : String)
    (mediaType mediaUrl : Option String) (t : Nat)
    (hfresh : ∀ p ∈ s.posts, p.id ≠ id) (hs : Invariant s) :
    Invariant (createPost s id authorId content mediaType mediaUrl t).2 := by
  obtain ⟨nd, ne, irr, fnd, fmem, gmem, lmem, lcnt⟩ := hs
  rw [createPost]
  split_ifs with h1 h2 h3
  · exact ⟨nd, ne, irr, fnd, fmem, gmem, lmem, lcnt⟩
  · exact ⟨nd, ne, irr, fnd, fmem, gmem, lmem, lcnt⟩
  · exact ⟨nd, ne, irr, fnd, fmem, gmem, lmem, lcnt⟩
  · refine ⟨nd, ne, irr, fnd, fmem, gmem, ?_, ?_⟩ <;> dsimp only
    · intro l hl
      rw [List.map_append]
      exact List.mem_append_left _ (lmem l hl)
    · intro p hp
      rcases List.mem_append.mp hp with h | h
      · exact lcnt p h
      · rcases List.mem_singleton.mp h with rfl
        dsimp only
        have hz : s.likes.countP (fun l => l.postId == id) = 0 := by
          rw [List.countP_eq_zero]
          intro l hl hbad
          rw [beq_iff_eq] at hbad
          have hmem := lmem l hl
          rw [hbad, List.mem_map] at hmem
          obtain ⟨q, hq, hqid⟩ := hmem
          exact hfresh q hq hqid
        rw [hz]
        rfl

theorem invariant_deletePost (s : Store) (postId : String) (hs : Invariant s) :
    Invariant (deletePost s postId).2 := by
  obtain ⟨nd, ne, irr, fnd, fmem, gmem, lmem, lcnt⟩ := hs
  rw [deletePost]
  cases hlp : lookupPost s postId with
  | none => exact ⟨nd, ne, irr, fnd, fmem, gmem, lmem, lcnt⟩
  | some p0 =>
    refine ⟨nd, ne, irr, fnd, fmem, gmem, ?_, ?_⟩ <;> dsimp only
    · intro l hl
      rw [List.mem_filter] at hl
      obtain ⟨hl, hlp2⟩ := hl
      rw [Bool.not_eq_true', beq_eq_false_iff_ne] at hlp2
      have hmem := lmem l hl
      rw [List.mem_map] at hmem
      obtain ⟨q, hq, hqid⟩ := hmem
      rw [List.mem_map]
      refine ⟨q, List.mem_filter.mpr ⟨hq, ?_⟩, hqid⟩
      rw [Bool.not_eq_true', beq_eq_false_iff_ne]
      rw [hqid]
      exact hlp2
    · intro p hp
      rw [List.mem_filter] at hp
      obtain ⟨hp, hpne⟩ := hp
      rw [Bool.not_eq_true', beq_eq_false_iff_ne] at hpne
      rw [lcnt p hp, List.countP_filter]
      congr 1
      refine List.countP_congr ?_
      intro l _
      constructor
      · intro hl
        rw [Bool.and_eq_true]
        refine ⟨hl, ?_⟩
        rw [beq_iff_eq] at hl
        rw [Bool.not_eq_true', beq_eq_false_iff_ne, hl]
        exact hpne
      · intro hl
        rw [Bool.and_eq_true] at hl
        exact hl.1

theorem invariant_follow (s : Store) (a b : String) (hs : Invariant s) :
    Invariant (follow s a b).2 := by
  obtain ⟨nd, ne, irr, fnd, fmem, gmem, lmem, lcnt⟩ := hs
  rw [follow]
  split_ifs with h1 h2 h3 h4 h5
  · exact ⟨nd, ne, irr, fnd, fmem, gmem, lmem, lcnt⟩
  · exact ⟨nd, ne, irr, fnd, fmem, gmem, lmem, lcnt⟩
  · exact ⟨nd, ne, irr, fnd, fmem, gmem, lmem, lcnt⟩
  · exact ⟨nd, ne, irr, fnd, fmem, gmem, lmem, lcnt⟩
  · exact ⟨nd, ne, irr, fnd, fmem, gmem, lmem, lcnt⟩
  · have hsa : (lookupUser s a).isSome := by
      cases hopt : lookupUser s a
      · exact absurd (by rw [hopt]; rfl) h3
      · rfl
    have hsb : (lookupUser s b).isSome := by
      cases hopt : lookupUser s b
      · exact absurd (by rw [hopt]; rfl) h4
      · rfl
    refine ⟨nd, ne, ?_, ?_, ?_, ?_, lmem, lcnt⟩ <;> dsimp only
    · intro f hf
      rcases List.mem_append.mp hf with h | h
      · exact irr f h
      · rcases List.mem_singleton.mp h with rfl
        exact h2
    · refine fnd.append (List.nodup_singleton _) ?_
      intro f hf hb2
      rcases List.mem_singleton.mp hb2 with rfl
      exact h5 (follow_any_of_mem hf)
    · intro f hf
      rcases List.mem_append.mp hf with h | h
      · exact fmem f h
      · rcases List.mem_singleton.mp h with rfl
        exact lookupUser_isSome_iff.mp hsa
    · intro f hf
      rcases List.mem_append.mp hf with h | h
      · exact gmem f h
      · rcases List.mem_singleton.mp h with rfl
        exact lookupUser_isSome_iff.mp hsb

theorem invariant_unfollow (s : Store) (a b : String) (hs : Invariant s) :
    Invariant (unfollow s a b).2 := by
  obtain ⟨nd, ne, irr, fnd, fmem, gmem, lmem, lcnt⟩ := hs
  rw [unfollow]
  split_ifs with h1 h2
  all_goals try exact ⟨nd, ne, irr, fnd, fmem, gmem, lmem, lcnt⟩
  refine ⟨nd, ne, ?_, ?_, ?_, ?_, lmem, lcnt⟩ <;> dsimp only
  · exact fun f hf => irr f (List.mem_of_mem_erase hf)
  · exact (List.erase_sublist _ _).nodup fnd
  · exact fun f hf => fmem f (List.mem_of_mem_erase hf)
  · exact fun f hf => gmem f (List.mem_of_mem_erase hf)

/-- Counting after erasing one occurrence of a member. -/
theorem countP_erase_of_mem {α : Type} [DecidableEq α] {l : List α} {a : α}
    (h : a ∈ l) (q : α → Bool) :
    l.countP q = (l.erase a).countP q + (if q a then 1 else 0) := by
  obtain ⟨l₁, l₂, _, hsplit, herase⟩ := List.exists_erase_eq h
  rw [herase, hsplit, List.countP_append, List.countP_append, List.countP_cons]
  omega

theorem invariant_like (s : Store) (postId userId : String) (hs : Invariant s) :
    Invariant (like s postId userId).2 := by
  obtain ⟨nd, ne, irr, fnd, fmem, gmem, lmem, lcnt⟩ := hs
  cases hlp : lookupPost s postId with
  | none =>
    rw [like, hlp]
    split_ifs <;> exact ⟨nd, ne, irr, fnd, fmem, gmem, lmem, lcnt⟩
  | some p0 =>
    rw [like, hlp]
    dsimp only
    split_ifs with h1 h3 h4
    · exact ⟨nd, ne, irr, fnd, fmem, gmem, lmem, lcnt⟩
    · exact ⟨nd, ne, irr, fnd, fmem, gmem, lmem, lcnt⟩
    · exact ⟨nd, ne, irr, fnd, fmem, gmem, lmem, lcnt⟩
    have hids : ((s.posts.map (fun p =>
        if p.id == postId then { p with likesCount := p.likesCount + 1 } else p)).map Post.id)
        = s.posts.map Post.id := by
      rw [List.map_map]
      refine List.map_congr_left ?_
      intro p _
      by_cases hc : (p.id == postId) = true
      · rw [Function.comp_apply, if_pos hc]
      · rw [Function.comp_apply, if_neg hc]
    refine ⟨nd, ne, irr, fnd, fmem, gmem, ?_, ?_⟩ <;> dsimp only
    · intro l hl
      rw [hids]
      rcases List.mem_append.mp hl with h | h
      · exact lmem l h
      · rcases List.mem_singleton.mp h with rfl
        obtain ⟨hp0, hp0id⟩ := lookupPost_mem hlp
        exact hp0id ▸ List.mem_map_of_mem Post.id hp0
    · intro p2 hp2
      rw [List.mem_map] at hp2
      obtain ⟨p, hp, rfl⟩ := hp2
      rw [List.countP_append]
      by_cases hc : (p.id == postId) = true
      · rw [if_pos hc]
        dsimp only
        rw [beq_iff_eq] at hc
        have he : ((⟨userId, postId⟩ : Like).postId == p.id) = true := by
          rw [beq_iff_eq, hc]
        simp only [List.countP_cons, List.countP_nil, he, if_pos]
        rw [lcnt p hp]
        push_cast
        ring
      · rw [if_neg hc]
        rw [Bool.not_eq_true, beq_eq_false_iff_ne] at hc
        have he : ((⟨userId, postId⟩ : Like).postId == p.id) = false := by
          rw [beq_eq_false_iff_ne]
          exact fun hbad => hc hbad.symm
        simp only [List.countP_cons, List.countP_nil, he, Bool.false_eq_true, if_false]
        rw [lcnt p hp]
        norm_num

theorem invariant_unlike (s : Store) (postId userId : String) (hs : Invariant s) :
    Invariant (unlike s postId userId).2 := by
  obtain ⟨nd, ne, irr, fnd, fmem, gmem, lmem, lcnt⟩ := hs
  cases hlp : lookupPost s postId with
  | none =>
    rw [unlike, hlp]
    split_ifs <;> exact ⟨nd, ne, irr, fnd, fmem, gmem, lmem, lcnt⟩
  | some p0 =>
    rw [unlike, hlp]
    dsimp only
    split_ifs with h1 h3
    all_goals try exact ⟨nd, ne, irr, fnd, fmem, gmem, lmem, lcnt⟩
    have hedge : (⟨userId, postId⟩ : Like) ∈ s.likes := like_mem_of_any h3
    have hids : ((s.posts.map (fun p =>
        if p.id == postId then { p with likesCount := max 0 (p.likesCount - 1) } else p)).map Post.id)
        = s.posts.map Post.id := by
      rw [List.map_map]
      refine List.map_congr_left ?_
      intro p _
      by_cases hc : (p.id == postId) = true
      · rw [Function.comp_apply, if_pos hc]
      · rw [Function.comp_apply, if_neg hc]
    refine ⟨nd, ne, irr, fnd, fmem, gmem, ?_, ?_⟩ <;> dsimp only
    · intro l hl
      rw [hids]
      exact lmem l (List.mem_of_mem_erase hl)
    · intro p2 hp2
      rw [List.mem_map] at hp2
      obtain ⟨p, hp, rfl⟩ := hp2
      by_cases hc : (p.id == postId) = true
      · rw [if_pos hc]
        dsimp only
        rw [beq_iff_eq] at hc
        have hsplit := countP_erase_of_mem hedge (fun l => l.postId == p.id)
        have he : ((⟨userId, postId⟩ : Like).postId == p.id) = true := by
          rw [beq_iff_eq, hc]
        rw [he, if_pos rfl] at hsplit
        have hpos : 0 < s.likes.countP (fun l => l.postId == p.id) := by
          rw [List.countP_pos_iff]
          exact ⟨⟨userId, postId⟩, hedge, he⟩
        rw [lcnt p hp]
        omega
      · rw [if_neg hc]
        rw [Bool.not_eq_true, beq_eq_false_iff_ne] at hc
        have hsplit := countP_erase_of_mem hedge (fun l => l.postId == p.id)
        have he : ((⟨userId, postId⟩ : Like).postId == p.id) = false := by
          rw [beq_eq_false_iff_ne]
          exact fun hbad => hc hbad.symm
        rw [he] at hsplit
        simp only [Bool.false_eq_true, if_false, Nat.add_zero] at hsplit
        rw [lcnt p hp, hsplit]

theorem invariant_empty : Invariant Store.empty := by
  refine ⟨?_, ?_, ?_, ?_, ?_, ?_, ?_, ?_⟩ <;> simp [Store.empty]

theorem invariant_seed (now : Nat) : Invariant (seedStore now) := by
  refine ⟨?_, ?_, ?_, ?_, ?_, ?_, ?_, ?_⟩
  · show (["user-alice-0001", "user-bob-0002", "user-carol-0003", "user-dave-0004",
           "user-eve-0005", "user-frank-0006"] : List String).Nodup
    decide
  · have h : ∀ i ∈ (seedStore now).users.map User.id, i ≠ "" := by
      show ∀ i ∈ (["user-alice-0001", "user-bob-0002", "user-carol-0003", "user-dave-0004",
                   "user-eve-0005", "user-frank-0006"] : List String), i ≠ ""
      decide
    exact fun u hu => h u.id (List.mem_map_of_mem User.id hu)
  · show ∀ f ∈ seedFollows, f.followerId ≠ f.followeeId
    decide
  · show seedFollows.Nodup
    decide
  · show ∀ f ∈ seedFollows, f.followerId ∈
      (["user-alice-0001", "user-bob-0002", "user-carol-0003", "user-dave-0004",
        "user-eve-0005", "user-frank-0006"] : List String)
    decide
  · show ∀ f ∈ seedFollows, f.followeeId ∈
      (["user-alice-0001", "user-bob-0002", "user-carol-0003", "user-dave-0004",
        "user-eve-0005", "user-frank-0006"] : List String)
    decide
  · show ∀ l ∈ seedLikeRels, l.postId ∈
      (["post-0001", "post-0002", "post-0003", "post-0004", "post-0005",
        "post-0006", "post-0007", "post-0008", "post-0009"] : List String)
    decide
  · have h : ∀ e ∈ (seedStore now).posts.map (fun p => (p.id, p.likesCount)),
        e.2 = ((seedLikeRels.countP (fun l => l.postId == e.1)) : Int) := by
      show ∀ e ∈ ([("post-0001", 2), ("post-0002", 0), ("post-0003", 0), ("post-0004", 2),
                   ("post-0005", 0), ("post-0006", 0), ("post-0007", 0), ("post-0008", 0),
                   ("post-0009", 1)] : List (String × Int)),
        e.2 = ((seedLikeRels.countP (fun l => l.postId == e.1)) : Int)
      decide
    intro p hp
    exact h (p.id, p.likesCount) (List.mem_map_of_mem _ hp)

/-- Every single API operation preserves the invariant. -/
theorem invariant_step {s s2 : Store} (hs : Invariant s) (hstep : Step s s2) :
    Invariant s2 := by
  cases hstep with
  | stepCreateUser id username displayName bio profilePicUrl t hid hfresh =>
    exact invariant_createUser s id username displayName bio profilePicUrl t hid hfresh hs
  | stepCreatePost id authorId content mediaType mediaUrl t hid hfresh =>
    exact invariant_createPost s id authorId content mediaType mediaUrl t hfresh hs
  | stepDeletePost postId => exact invariant_deletePost s postId hs
  | stepFollow a b => exact invariant_follow s a b hs
  | stepUnfollow a b => exact invariant_unfollow s a b hs
  | stepLike postId userId => exact invariant_like s postId userId hs
  | stepUnlike postId userId => exact invariant_unlike s postId userId hs
  | stepReset => exact invariant_empty

/-- Every reachable store satisfies the invariant. -/
theorem reachable_invariant {s : Store} (h : Reachable s) : Invariant s := by
  induction h with
  | empty => exact invariant_empty
  | seeded now => exact invariant_seed now
  | step _ hstep ih => exact invariant_step ih hstep

/-! ### Suggestion tally analysis -/

/-- Keys of the tally are distinct and each key is an eligible 2-hop
candidate: not the user, not already followed, and the target of some
follow edge. -/
theorem suggestionTally_props (follows : List Follow) (userId : String) (A : List String) :
    ((suggestionTally follows userId A).map Prod.fst).Nodup ∧
    ∀ k ∈ (suggestionTally follows userId A).map Prod.fst,
      k ≠ userId ∧ k ∉ A ∧ ∃ f ∈ follows, f.followeeId = k := by
  rw [suggestionTally]
  refine foldl_invariant (fun m : List (String × Nat) => (m.map Prod.fst).Nodup ∧
    ∀ k ∈ m.map Prod.fst, k ≠ userId ∧ k ∉ A ∧ ∃ f ∈ follows, f.followeeId = k)
    _ A [] ?_ ?_
  · exact ⟨List.nodup_nil, by intro k hk; simp at hk⟩
  intro m fid _ hm
  refine foldl_invariant (fun m2 : List (String × Nat) => (m2.map Prod.fst).Nodup ∧
    ∀ k ∈ m2.map Prod.fst, k ≠ userId ∧ k ∉ A ∧ ∃ f ∈ follows, f.followeeId = k)
    _ _ m hm ?_
  intro m2 f hf hm2
  by_cases hc : f.followeeId = userId ∨ f.followeeId ∈ A
  · rw [if_pos hc]
    exact hm2
  · rw [if_neg hc]
    push_neg at hc
    refine ⟨bump_keys_nodup hm2.1, ?_⟩
    intro k hk
    rcases bump_keys_mem.mp hk with hold | rfl
    · exact hm2.2 k hold
    · exact ⟨hc.1, hc.2, ⟨f, List.mem_of_mem_filter hf, rfl⟩⟩

/-- Inner tally loop: each edge out of a single followee with target `c`
adds one to the count of an eligible candidate `c`. -/
theorem valAt_tally_inner (userId : String) (A : List String)
    (lf : List Follow) {c : String} (hcu : c ≠ userId) (hcA : c ∉ A) :
    ∀ m : List (String × Nat),
      valAt (lf.foldl (fun m2 f =>
        if f.followeeId = userId ∨ f.followeeId ∈ A then m2
        else bump m2 f.followeeId) m) c
      = valAt m c + lf.countP (fun f => f.followeeId == c) := by
  induction lf with
  | nil => intro m; simp
  | cons f t ih =>
    intro m
    rw [List.foldl_cons, List.countP_cons, ih]
    by_cases hc : f.followeeId = userId ∨ f.followeeId ∈ A
    · rw [if_pos hc]
      have hne : (f.followeeId == c) = false := by
        rw [beq_eq_false_iff_ne]
        rintro rfl
        rcases hc with h | h
        · exact hcu h
        · exact hcA h
      rw [hne]
      simp
    · rw [if_neg hc, valAt_bump]
      by_cases hfc : f.followeeId = c
      · have h1 : (f.followeeId == c) = true := by rw [beq_iff_eq]; exact hfc
        have h3 : (if (f.followeeId == c) = true then 1 else 0) = 1 := by
          rw [h1]
          decide
        rw [h3, if_pos hfc.symm]
        omega
      · have h1 : (f.followeeId == c) = false := by rw [beq_eq_false_iff_ne]; exact hfc
        have h2 : ¬ c = f.followeeId := fun h => hfc h.symm
        have h3 : (if (f.followeeId == c) = true then 1 else 0) = 0 := by
          rw [h1]
          decide
        rw [h3, if_neg h2]
        omega

/-- Outer tally loop: the count of an eligible candidate `c` is the total
number of follow edges out of already-followed users that point at `c`. -/
theorem valAt_tally (follows : List Follow) (userId : String) (A : List String)
    {c : String} (hcu : c ≠ userId) (hcA : c ∉ A) :
    valAt (suggestionTally follows userId A) c
      = (A.map (fun fid =>
          (follows.filter (fun f => f.followerId == fid)).countP
            (fun f => f.followeeId == c))).sum := by
  rw [suggestionTally]
  suffices h : ∀ (t : List String) (m : List (String × Nat)),
      valAt (t.foldl (fun m fid =>
        (follows.filter (fun f => f.followerId == fid)).foldl (fun m2 f =>
          if f.followeeId = userId ∨ f.followeeId ∈ A then m2
          else bump m2 f.followeeId) m) m) c
      = valAt m c + (t.map (fun fid =>
          (follows.filter (fun f => f.followerId == fid)).countP
            (fun f => f.followeeId == c))).sum by
    rw [h A []]
    simp [valAt]
  intro t
  induction t with
  | nil => intro m; simp
  | cons fid t2 ih =>
    intro m
    rw [List.foldl_cons, ih, valAt_tally_inner userId A _ hcu hcA m,
      List.map_cons, List.sum_cons]
    omega

/-- With no duplicate edges, the per-followee tally term is a membership
indicator for the single edge (fid, c). -/
theorem countP_follows_pair {follows : List Follow} (hnd : follows.Nodup)
    (fid c : String) :
    (follows.filter (fun f => f.followerId == fid)).countP (fun f => f.followeeId == c)
      = if (⟨fid, c⟩ : Follow) ∈ follows then 1 else 0 := by
  rw [List.countP_filter]
  have hcongr : (follows.countP (fun f => f.followeeId == c && f.followerId == fid))
      = follows.countP (fun f => f == (⟨fid, c⟩ : Follow)) := by
    refine List.countP_congr ?_
    intro f _
    cases f with
    | mk a b =>
      by_cases h1 : a = fid <;> by_cases h2 : b = c <;>
        simp [h1, h2, Follow.mk.injEq]
  rw [hcongr]
  show follows.count (⟨fid, c⟩ : Follow) = _
  by_cases hmem : (⟨fid, c⟩ : Follow) ∈ follows
  · rw [if_pos hmem]
    exact List.count_eq_one_of_mem hnd hmem
  · rw [if_neg hmem]
    exact List.count_eq_zero_of_not_mem hmem

/-- Summing edge-membership indicators over the followee set counts the
followees that have an edge to `c`. -/
theorem sum_map_ite_mem (A : List String) (follows : List Follow) (c : String) :
    (A.map (fun fid => if (⟨fid, c⟩ : Follow) ∈ follows then 1 else 0)).sum
      = A.countP (fun fid => follows.contains ⟨fid, c⟩) := by
  induction A with
  | nil => rfl
  | cons a t ih =>
    rw [List.map_cons, List.sum_cons, List.countP_cons, ih]
    by_cases h : (⟨a, c⟩ : Follow) ∈ follows
    · have hc : follows.contains (⟨a, c⟩ : Follow) = true := List.elem_iff.mpr h
      rw [if_pos h, hc]
      simp [Nat.add_comm]
    · have hc : follows.contains (⟨a, c⟩ : Follow) = false := by
        rw [← Bool.not_eq_true]
        exact fun hx => h (List.elem_iff.mp hx)
      rw [if_neg h, hc]
      simp

/-! ### Suggestion zero-fill analysis -/

/-- The zero-fill never changes the value associated to any key. -/
theorem suggestionFill_valAt (users : List User) (userId : String) (A : List String)
    (c : String) :
    ∀ m : List (String × Nat),
      valAt (suggestionFill users userId A m) c = valAt m c := by
  have happ : ∀ (m : List (String × Nat)) (k : String), valAt (m ++ [(k, 0)]) c = valAt m c := by
    intro m k
    induction m with
    | nil =>
      by_cases h : k = c <;> simp [valAt, h]
    | cons e t ih =>
      by_cases h : e.1 = c <;> simp [valAt, h, ih]
  simp only [suggestionFill]
  induction users with
  | nil => intro m; rfl
  | cons v t ih =>
    intro m
    rw [List.foldl_cons]
    by_cases h1 : v.id = userId ∨ v.id ∈ A
    · rw [if_pos h1]
      exact ih m
    · rw [if_neg h1]
      by_cases h2 : (m.find? (fun e => e.1 == v.id)).isSome = true
      · rw [if_pos h2]
        exact ih m
      · rw [if_neg h2, ih (m ++ [(v.id, 0)]), happ]

/-- The zero-fill preserves distinctness of keys and only adds keys of
eligible users. -/
theorem suggestionFill_props (users : List User) (userId : String) (A : List String)
    (m : List (String × Nat)) (hnd : (m.map Prod.fst).Nodup) :
    ((suggestionFill users userId A m).map Prod.fst).Nodup ∧
    (∀ k ∈ (suggestionFill users userId A m).map Prod.fst,
        k ∈ m.map Prod.fst ∨ (∃ u ∈ users, u.id = k ∧ k ≠ userId ∧ k ∉ A)) := by
  rw [suggestionFill]
  refine foldl_invariant (fun m2 : List (String × Nat) => (m2.map Prod.fst).Nodup ∧
    ∀ k ∈ m2.map Prod.fst,
      k ∈ m.map Prod.fst ∨ (∃ u ∈ users, u.id = k ∧ k ≠ userId ∧ k ∉ A))
    _ users m ?_ ?_
  · exact ⟨hnd, fun k hk => Or.inl hk⟩
  intro m2 u hu hm2
  by_cases h1 : u.id = userId ∨ u.id ∈ A
  · rw [if_pos h1]
    exact hm2
  · rw [if_neg h1]
    by_cases h2 : (m2.find? (fun e => e.1 == u.id)).isSome = true
    · rw [if_pos h2]
      exact hm2
    · rw [if_neg h2]
      push_neg at h1
      have hnotin : u.id ∉ m2.map Prod.fst := fun hmem => h2 (findKey_isSome.mpr hmem)
      constructor
      · rw [List.map_append]
        refine hm2.1.append (by simp) ?_
        intro a ha hb
        simp only [List.map_cons, List.map_nil, List.mem_singleton] at hb
        exact hnotin (hb ▸ ha)
      · intro k hk
        rw [List.map_append] at hk
        rcases List.mem_append.mp hk with h | h
        · exact hm2.2 k h
        · simp only [List.map_cons, List.map_nil, List.mem_singleton] at h
          exact Or.inr ⟨u, hu, h.symm, h ▸ h1.1, h ▸ h1.2⟩

/-- After the zero-fill, every eligible user id is a key. -/
theorem suggestionFill_covers (users : List User) (userId : String) (A : List String)
    {u : User} (hu : u ∈ users) (h1 : u.id ≠ userId) (h2 : u.id ∉ A) :
    ∀ m : List (String × Nat),
      u.id ∈ (suggestionFill users userId A m).map Prod.fst := by
  have hmono : ∀ (t : List User) (m : List (String × Nat)) (k : String),
      k ∈ m.map Prod.fst →
      k ∈ (t.foldl (fun m2 u => if u.id = userId ∨ u.id ∈ A then m2
            else if (m2.find? (fun e => e.1 == u.id)).isSome then m2
            else m2 ++ [(u.id, 0)]) m).map Prod.fst := by
    intro t
    induction t with
    | nil => intro m k hk; exact hk
    | cons v t2 ih =>
      intro m k hk
      rw [List.foldl_cons]
      refine ih _ k ?_
      by_cases hc1 : v.id = userId ∨ v.id ∈ A
      · rw [if_pos hc1]; exact hk
      · rw [if_neg hc1]
        by_cases hc2 : (m.find? (fun e => e.1 == v.id)).isSome = true
        · rw [if_pos hc2]; exact hk
        · rw [if_neg hc2, List.map_append]
          exact List.mem_append_left _ hk
  simp only [suggestionFill]
  induction users with
  | nil => cases hu
  | cons v t ih =>
    intro m
    rw [List.foldl_cons]
    rcases List.mem_cons.mp hu with rfl | hut
    · refine hmono t _ u.id ?_
      by_cases hc2 : (m.find? (fun e => e.1 == u.id)).isSome = true
      · rw [if_neg (by push_neg; exact ⟨h1, h2⟩), if_pos hc2]
        exact findKey_isSome.mp hc2
      · rw [if_neg (by push_neg; exact ⟨h1, h2⟩), if_neg hc2, List.map_append]
        refine List.mem_append_right _ ?_
        simp
    · exact ih hut _

/-- The number of distinct length-2 follow paths from `u` to `c` through
`u`'s followees: the number of followees `f` of `u` such that the follow
edge (f, c) exists.  (Stated from the specification's description of
mutualCount; compared below against the code's tally.) -/
def mutualPathCount (s : Store) (u c : String) : Nat :=
  (jsSet (followeesOf s u)).countP (fun fid => s.follows.contains ⟨fid, c⟩)

/-- Instances making the descending-count sort relation usable with
`sorted_insertionSort`. -/
instance : IsTotal (String × Nat) (fun a b => b.2 ≤ a.2) :=
  ⟨fun a b => le_total b.2 a.2⟩

instance : IsTrans (String × Nat) (fun a b => b.2 ≤ a.2) :=
  ⟨fun _ _ _ hab hbc => le_trans hbc hab⟩

instance : IsTotal Post (fun a b => b.createdAt ≤ a.createdAt) :=
  ⟨fun a b => le_total b.createdAt a.createdAt⟩

instance : IsTrans Post (fun a b => b.createdAt ≤ a.createdAt) :=
  ⟨fun _ _ _ hab hbc => le_trans hbc hab⟩

/-- Structure of the suggestion output in an invariant-satisfying store:
every entry resolves to an eligible user carrying its 2-hop path count,
every eligible user appears exactly once, and the sequence is sorted by
count descending. -/
theorem computeSuggestions_entries {s : Store} (hinv : Invariant s) (u : String) :
    (∀ e ∈ computeSuggestions s u, ∃ usr, e.1 = some usr ∧ usr ∈ s.users ∧
        usr.id ≠ u ∧ usr.id ∉ followeesOf s u ∧ e.2 = mutualPathCount s u usr.id) ∧
    (∀ usr ∈ s.users, usr.id ≠ u → usr.id ∉ followeesOf s u →
        (computeSuggestions s u).countP
          (fun e => e.1.map User.id == some usr.id) = 1) ∧
    (computeSuggestions s u).Pairwise (fun x y => y.2 ≤ x.2) := by
  obtain ⟨nd, ne, irr, fnd, fmem, gmem, lmem, lcnt⟩ := hinv
  have hcs : computeSuggestions s u =
      ((suggestionFill s.users u
          (jsSet ((s.follows.filter (fun f => f.followerId == u)).map (fun f => f.followeeId)))
          (suggestionTally s.follows u
            (jsSet ((s.follows.filter (fun f => f.followerId == u)).map (fun f => f.followeeId))))).insertionSort
        (fun a b => b.2 ≤ a.2)).map (fun e => (lookupUser s e.1, e.2)) := rfl
  set A := jsSet ((s.follows.filter (fun f => f.followerId == u)).map (fun f => f.followeeId)) with hA
  set tally := suggestionTally s.follows u A with htallydef
  set filled := suggestionFill s.users u A tally with hfilleddef
  set sorted := filled.insertionSort (fun a b => b.2 ≤ a.2) with hsorteddef
  have hAiff : ∀ x, x ∈ A ↔ x ∈ followeesOf s u := by
    intro x
    rw [hA, followeesOf]
    exact mem_jsSet
  have htally := suggestionTally_props s.follows u A
  have hfill := suggestionFill_props s.users u A tally htally.1
  have hperm : sorted.Perm filled := List.perm_insertionSort _ filled
  have hkey : ∀ k ∈ filled.map Prod.fst,
      k ∈ s.users.map User.id ∧ k ≠ u ∧ k ∉ A := by
    intro k hk
    rcases hfill.2 k hk with htk | ⟨usr, husr, rfl, hne, hnotA⟩
    · obtain ⟨hku, hkA, f, hfm, hfk⟩ := htally.2 k htk
      exact ⟨hfk ▸ gmem f hfm, hku, hkA⟩
    · exact ⟨List.mem_map_of_mem User.id husr, hne, hnotA⟩
  have hval : ∀ ev ∈ filled, ev.2 = mutualPathCount s u ev.1 := by
    intro ev hev
    obtain ⟨_, hku, hkA⟩ := hkey ev.1 (List.mem_map_of_mem Prod.fst hev)
    have h1 : valAt filled ev.1 = ev.2 := valAt_of_mem hfill.1 hev
    rw [← h1, hfilleddef, suggestionFill_valAt, htallydef, valAt_tally s.follows u A hku hkA]
    have h2 : (A.map (fun fid =>
        (s.follows.filter (fun f => f.followerId == fid)).countP
          (fun f => f.followeeId == ev.1))) =
        A.map (fun fid => if (⟨fid, ev.1⟩ : Follow) ∈ s.follows then 1 else 0) :=
      List.map_congr_left (fun fid _ => countP_follows_pair fnd fid ev.1)
    rw [h2, sum_map_ite_mem, mutualPathCount]
    rfl
  refine ⟨?_, ?_, ?_⟩
  · intro e he
    rw [hcs] at he
    rw [List.mem_map] at he
    obtain ⟨ev, hev, rfl⟩ := he
    have hevf : ev ∈ filled := hperm.mem_iff.mp hev
    obtain ⟨hkmem, hku, hkA⟩ := hkey ev.1 (List.mem_map_of_mem Prod.fst hevf)
    have hsome : (lookupUser s ev.1).isSome := lookupUser_isSome_iff.mpr hkmem
    rcases Option.isSome_iff_exists.mp hsome with ⟨w, hw⟩
    obtain ⟨hwmem, hwid⟩ := lookupUser_mem hw
    refine ⟨w, by rw [hw], hwmem, ?_, ?_, ?_⟩
    · rw [hwid]
      exact hku
    · rw [hwid]
      exact fun hmem => hkA ((hAiff ev.1).mpr hmem)
    · rw [hwid]
      exact hval ev hevf
  · intro usr husr h1 h2
    have h2A : usr.id ∉ A := fun hmem => h2 ((hAiff usr.id).mp hmem)
    rw [hcs, List.countP_map]
    have hcongr : sorted.countP
        ((fun e : Option User × Nat => e.1.map User.id == some usr.id) ∘
          (fun e : String × Nat => (lookupUser s e.1, e.2)))
        = sorted.countP (fun ev => ev.1 == usr.id) := by
      refine List.countP_congr ?_
      intro ev hev
      have hevf : ev ∈ filled := hperm.mem_iff.mp hev
      obtain ⟨hkmem, _, _⟩ := hkey ev.1 (List.mem_map_of_mem Prod.fst hevf)
      have hsome : (lookupUser s ev.1).isSome := lookupUser_isSome_iff.mpr hkmem
      rcases Option.isSome_iff_exists.mp hsome with ⟨w, hw⟩
      obtain ⟨_, hwid⟩ := lookupUser_mem hw
      simp [Function.comp_apply, hw, hwid]
    rw [hcongr, hperm.countP_eq]
    have hmapped : filled.countP (fun ev => ev.1 == usr.id)
        = (filled.map Prod.fst).countP (fun k => k == usr.id) := by
      rw [List.countP_map]
      rfl
    rw [hmapped]
    show (filled.map Prod.fst).count usr.id = 1
    exact List.count_eq_one_of_mem hfill.1
      (suggestionFill_covers s.users u A husr h1 h2A tally)
  · rw [hcs]
    have hsortedp : List.Sorted (fun a b : String × Nat => b.2 ≤ a.2) sorted :=
      List.sorted_insertionSort _ filled
    exact hsortedp.map (fun e : String × Nat => (lookupUser s e.1, e.2)) (fun a b h => h)

/-- Membership in the raw followee list is existence of the follow edge. -/
theorem mem_followeesOf {s : Store} {u x : String} :
    x ∈ followeesOf s u ↔ (⟨u, x⟩ : Follow) ∈ s.follows := by
  rw [followeesOf]
  constructor
  · intro h
    rw [List.mem_map] at h
    obtain ⟨f, hf, rfl⟩ := h
    rw [List.mem_filter] at hf
    obtain ⟨hf, hcond⟩ := hf
    rw [beq_iff_eq] at hcond
    cases f
    cases hcond
    exact hf
  · intro h
    rw [List.mem_map]
    exact ⟨⟨u, x⟩, List.mem_filter.mpr ⟨h, by simp⟩, rfl⟩

/-- The feed's author filter agrees with raw followee-list membership. -/
theorem buildFeed_filter_congr (s : Store) (u : String) :
    s.posts.filter (fun p => (jsSet (followeesOf s u)).contains p.authorId)
      = s.posts.filter (fun p => decide (p.authorId ∈ followeesOf s u)) := by
  refine List.filter_congr ?_
  intro p _
  by_cases h : p.authorId ∈ followeesOf s u
  · have h1 : (jsSet (followeesOf s u)).contains p.authorId = true :=
      List.elem_iff.mpr (mem_jsSet.mpr h)
    rw [h1, decide_eq_true h]
  · have h1 : (jsSet (followeesOf s u)).contains p.authorId = false := by
      rw [← Bool.not_eq_true]
      exact fun hx => h (mem_jsSet.mp (List.elem_iff.mp hx))
    rw [h1, decide_eq_false h]

/-- Structure of the feed in an invariant-satisfying store. -/
theorem buildFeed_entries {s : Store} (hinv : Invariant s) (u : String) :
    ((buildFeed s u).map Prod.fst).Perm
        (s.posts.filter (fun p => decide (p.authorId ∈ followeesOf s u))) ∧
    (∀ e ∈ buildFeed s u, e.1.authorId ≠ u ∧ e.2 = lookupUser s e.1.authorId) ∧
    (buildFeed s u).Pairwise (fun x y => y.1.createdAt ≤ x.1.createdAt) := by
  have hbf : buildFeed s u =
      ((s.posts.filter (fun p => (jsSet (followeesOf s u)).contains p.authorId)).insertionSort
        (fun a b => b.createdAt ≤ a.createdAt)).map
        (fun p => (p, lookupUser s p.authorId)) := rfl
  set flt := s.posts.filter (fun p => (jsSet (followeesOf s u)).contains p.authorId) with hflt
  set sorted := flt.insertionSort (fun a b => b.createdAt ≤ a.createdAt) with hsorted
  have hperm : sorted.Perm flt := List.perm_insertionSort _ flt
  refine ⟨?_, ?_, ?_⟩
  · have hmm : (buildFeed s u).map Prod.fst = sorted := by
      rw [hbf, List.map_map]
      have : (Prod.fst ∘ fun p : Post => (p, lookupUser s p.authorId)) = id := rfl
      rw [this, List.map_id]
    rw [hmm, ← buildFeed_filter_congr s u]
    exact hperm
  · intro e he
    rw [hbf, List.mem_map] at he
    obtain ⟨p, hp, rfl⟩ := he
    have hpf : p ∈ flt := hperm.mem_iff.mp hp
    rw [hflt, List.mem_filter] at hpf
    obtain ⟨hpmem, hpc⟩ := hpf
    have hfollowee : p.authorId ∈ followeesOf s u := mem_jsSet.mp (List.elem_iff.mp hpc)
    refine ⟨?_, rfl⟩
    intro hbad
    have hedge : (⟨u, p.authorId⟩ : Follow) ∈ s.follows := mem_followeesOf.mp hfollowee
    exact hinv.followIrrefl _ hedge (by rw [hbad])
  · rw [hbf]
    have hsp : List.Sorted (fun a b : Post => b.createdAt ≤ a.createdAt) sorted :=
      List.sorted_insertionSort _ flt
    exact hsp.map (fun p : Post => (p, lookupUser s p.authorId)) (fun a b h => h)

/-- Post lookup commutes with an id-preserving map over the posts. -/
theorem find?_map_id_preserving (posts : List Post) (pid : String)
    (g : Post → Post) (hg : ∀ p, (g p).id = p.id) :
    (posts.map g).find? (fun p => p.id == pid)
      = (posts.find? (fun p => p.id == pid)).map g := by
  rw [List.find?_map]
  have hfun : ((fun p : Post => p.id == pid) ∘ g) = (fun p : Post => p.id == pid) :=
    funext (fun p => by rw [Function.comp_apply, hg p])
  rw [hfun]

/-- Evaluation of a successful like. -/
theorem like_success {s : Store} {pid u : String} {p : Post}
    (hu : ¬ u = "") (hp : lookupPost s pid = some p)
    (hw : (lookupUser s u).isSome)
    (hany : s.likes.any (fun l => l.userId == u && l.postId == pid) = false) :
    like s pid u = (none, { s with
      likes := s.likes ++ [⟨u, pid⟩]
      posts := s.posts.map (fun q =>
        if q.id == pid then { q with likesCount := q.likesCount + 1 } else q) }) := by
  have h3 : (lookupUser s u).isNone = false := by
    cases hopt : lookupUser s u
    · rw [hopt] at hw
      cases hw
    · rfl
  rw [like, if_neg hu, hp]
  simp only [h3, hany, Bool.false_eq_true, if_false]

/-- Evaluation of a successful unlike. -/
theorem unlike_success {s : Store} {pid u : String} {p : Post}
    (hu : ¬ u = "") (hp : lookupPost s pid = some p)
    (hmem : (⟨u, pid⟩ : Like) ∈ s.likes) :
    unlike s pid u = (none, { s with
      likes := s.likes.erase ⟨u, pid⟩
      posts := s.posts.map (fun q =>
        if q.id == pid then { q with likesCount := max 0 (q.likesCount - 1) } else q) }) := by
  have hany : s.likes.any (fun l => l.userId == u && l.postId == pid) = true :=
    like_any_of_mem hmem
  rw [unlike, if_neg hu, hp]
  simp only [hany, not_true, if_false]

/-! ### Concrete reachable stores used as witnesses -/

/-- Empty store, then user a. -/
def sA : Store := (createUser Store.empty "a" "alice" "Alice" none none 1).2

/-- ... then user b. -/
def sB : Store := (createUser sA "b" "bob" "Bob" none none 2).2

/-- ... then user c. -/
def sC : Store := (createUser sB "c" "carol" "Carol" none none 3).2

/-- ... a follows b. -/
def sAB : Store := (follow sC "a" "b").2

/-- ... b follows c. -/
def sABC : Store := (follow sAB "b" "c").2

/-- ... a additionally follows c directly. -/
def sACdirect : Store := (follow sABC "a" "c").2

/-- ... from sABC, a creates post p1. -/
def sPost : Store := (createPost sABC "p1" "a" "hi" none none 10).2

/-- ... then b likes p1. -/
def sLike : Store := (like sPost "p1" "b").2

theorem reach_sA : Reachable sA :=
  Reachable.step Reachable.empty
    (Step.stepCreateUser Store.empty "a" "alice" "Alice" none none 1 (by decide)
      (by intro u hu; simp [Store.empty] at hu))

theorem reach_sB : Reachable sB :=
  Reachable.step reach_sA
    (Step.stepCreateUser sA "b" "bob" "Bob" none none 2 (by decide) (by decide))

theorem reach_sC : Reachable sC :=
  Reachable.step reach_sB
    (Step.stepCreateUser sB "c" "carol" "Carol" none none 3 (by decide) (by decide))

theorem reach_sAB : Reachable sAB :=
  Reachable.step reach_sC (Step.stepFollow sC "a" "b")

theorem reach_sABC : Reachable sABC :=
  Reachable.step reach_sAB (Step.stepFollow sAB "b" "c")

theorem reach_sACdirect : Reachable sACdirect :=
  Reachable.step reach_sABC (Step.stepFollow sABC "a" "c")

theorem reach_sPost : Reachable sPost :=
  Reachable.step reach_sABC
    (Step.stepCreatePost sABC "p1" "a" "hi" none none 10 (by decide) (by decide))

theorem reach_sLike : Reachable sLike :=
  Reachable.step reach_sPost (Step.stepLike sPost "p1" "b")

/-! ### Claim theorems -/

/-- C3: in every store state reachable through the API operations (from the
empty or seeded store), every post's denormalized likesCount equals the
number of like edges referencing it; all operations (like, unlike,
createPost, deletePost with its cascade, resetAll, seed) preserve this,
which is exactly what the reachability induction establishes. -/
theorem likesCount_matches_edges (s : Store) (hr : Reachable s) :
    ∀ p ∈ s.posts, p.likesCount = (s.likes.countP (fun l => l.postId == p.id) : Int) :=
  (reachable_invariant hr).likesCountEq

/-- C6: for every reachable store and existing user, the follower and
following counts computed from the raw edge lists agree with the lengths of
the resolved (dangling-filtered) follower and following lists. -/
theorem counts_agree_with_resolved_lists (s : Store) (u : String) (hr : Reachable s)
    (hex : (lookupUser s u).isSome) :
    followerCount s u = (followersOf s u).length ∧
    followingCount s u = (followingOf s u).length := by
  have inv := reachable_invariant hr
  constructor
  · rw [followerCount, followersOf]
    have hall : ∀ x ∈ (s.follows.filter (fun f => f.followeeId == u)).map
        (fun f => lookupUser s f.followerId), x.isSome := by
      intro x hx
      rw [List.mem_map] at hx
      obtain ⟨f, hf, rfl⟩ := hx
      rw [List.mem_filter] at hf
      exact lookupUser_isSome_iff.mpr (inv.followerMem f hf.1)
    rw [reduceOption_length_of_all_some hall, List.length_map]
  · rw [followingCount, followingOf]
    have hall : ∀ x ∈ (s.follows.filter (fun f => f.followerId == u)).map
        (fun f => lookupUser s f.followeeId), x.isSome := by
      intro x hx
      rw [List.mem_map] at hx
      obtain ⟨f, hf, rfl⟩ := hx
      rw [List.mem_filter] at hf
      exact lookupUser_isSome_iff.mpr (inv.followeeMem f hf.1)
    rw [reduceOption_length_of_all_some hall, List.length_map]

/-- C8: in every reachable store state every follow edge is irreflexive,
there is at most one edge per ordered pair, and both endpoints resolve to
existing users. -/
theorem follow_edges_invariant (s : Store) (hr : Reachable s) :
    (∀ f ∈ s.follows, f.followerId ≠ f.followeeId) ∧
    (s.follows.map (fun f => (f.followerId, f.followeeId))).Nodup ∧
    (∀ f ∈ s.follows, f.followerId ∈ s.users.map User.id ∧
      f.followeeId ∈ s.users.map User.id) := by
  have inv := reachable_invariant hr
  refine ⟨inv.followIrrefl, ?_,
    fun f hf => ⟨inv.followerMem f hf, inv.followeeMem f hf⟩⟩
  refine inv.followNodup.map ?_
  intro a b hab
  cases a
  cases b
  simpa using hab

/-- C9: for every reachable store in which u exists, follow(u, u) fails with
the self-follow validation error (status 400, checked before the existence
and duplicate checks, so it can never surface as Conflict or NotFound), and
the store is returned unchanged. -/
theorem self_follow_validation (s : Store) (u : String) (hr : Reachable s)
    (hex : (lookupUser s u).isSome) :
    follow s u u = (some (ApiErr.badRequest "a user cannot follow themselves"), s) := by
  have inv := reachable_invariant hr
  rcases Option.isSome_iff_exists.mp hex with ⟨w, hw⟩
  obtain ⟨hwmem, hwid⟩ := lookupUser_mem hw
  have hu0 : ¬ u = "" := fun h => inv.userIdNe w hwmem (hwid.trans h)
  rw [follow, if_neg (by push_neg; exact ⟨hu0, hu0⟩), if_pos rfl]

/-- C10: the inline suggestion logic of the users router and the
computeSuggestions function used by the suggestions router are extensionally
equal, 404 guard included: on every store and every user id they produce the
same result. -/
theorem suggestion_routes_agree (s : Store) (id : String) :
    usersSuggestionsRoute s id = suggestionsRoute s id := rfl

/-- C1: for every reachable store and existing user u, the suggestion output
consists of exactly the users other than u and other than u's followees:
every entry resolves to such a user, every such user appears exactly once,
every mutualCount is nonnegative, and the sequence is sorted by mutualCount
descending. -/
theorem suggest_excludes_and_covers (s : Store) (u : String)
    (hr : Reachable s) (hex : (lookupUser s u).isSome) :
    (∀ e ∈ computeSuggestions s u, ∃ usr, e.1 = some usr ∧ usr ∈ s.users ∧
        usr.id ≠ u ∧ usr.id ∉ followeesOf s u) ∧
    (∀ usr ∈ s.users, usr.id ≠ u → usr.id ∉ followeesOf s u →
        (computeSuggestions s u).countP
          (fun e => e.1.map User.id == some usr.id) = 1) ∧
    (∀ e ∈ computeSuggestions s u, 0 ≤ e.2) ∧
    (computeSuggestions s u).Pairwise (fun x y => y.2 ≤ x.2) := by
  have h := computeSuggestions_entries (reachable_invariant hr) u
  refine ⟨?_, h.2.1, fun e _ => Nat.zero_le _, h.2.2⟩
  intro e he
  obtain ⟨usr, h1, h2, h3, h4, _⟩ := h.1 e he
  exact ⟨usr, h1, h2, h3, h4⟩

/-- C2: in every reachable store, the mutualCount attached to each
suggestion entry equals the number of distinct length-2 follow paths from u
to that user through u's followees (the number of followees f of u with an
edge (f, c)); and in the concrete A-B-C scenario, suggest(A) lists C with
mutualCount 1 after A follows B and B follows C, and no longer lists C once
A follows C directly. -/
theorem mutualCount_counts_paths :
    (∀ (s : Store) (u : String), Reachable s →
      ∀ e ∈ computeSuggestions s u, ∀ usr, e.1 = some usr →
        e.2 = mutualPathCount s u usr.id) ∧
    ((computeSuggestions sABC "a").map (fun e => (e.1.map User.id, e.2))
        = [(some "c", 1)] ∧
      computeSuggestions sACdirect "a" = []) := by
  constructor
  · intro s u hr e he usr hres
    obtain ⟨usr2, h1, _, _, _, h5⟩ :=
      (computeSuggestions_entries (reachable_invariant hr) u).1 e he
    have husr : usr = usr2 := by
      rw [hres] at h1
      exact Option.some.inj h1
    rw [husr]
    exact h5
  · exact ⟨by decide, by decide⟩

/-- C4: for every reachable store and existing user u, the feed contains
exactly the posts whose author is among u's followees (as a multiset), never
contains a post authored by u, and adjacent entries are ordered by
non-increasing creation time. -/
theorem feed_exact_followed_sorted (s : Store) (u : String) (hr : Reachable s)
    (hex : (lookupUser s u).isSome) :
    ((buildFeed s u).map Prod.fst).Perm
        (s.posts.filter (fun p => decide (p.authorId ∈ followeesOf s u))) ∧
    (∀ e ∈ buildFeed s u, e.1.authorId ≠ u) ∧
    (buildFeed s u).Pairwise (fun x y => y.1.createdAt ≤ x.1.createdAt) := by
  have h := buildFeed_entries (reachable_invariant hr) u
  exact ⟨h.1, fun e he => (h.2.1 e he).1, h.2.2⟩

/-- C5: in every reachable store, likesCount is never negative, and for any
existing user u and existing post p with no like edge (u, p), liking then
unliking succeeds and restores the post record (likesCount included) to
exactly its previous value. -/
theorem like_unlike_roundtrip (s : Store) (hr : Reachable s) :
    (∀ p ∈ s.posts, 0 ≤ p.likesCount) ∧
    (∀ (u pid : String) (p : Post), (lookupUser s u).isSome →
      lookupPost s pid = some p →
      s.likes.any (fun l => l.userId == u && l.postId == pid) = false →
      (like s pid u).1 = none ∧
      (unlike (like s pid u).2 pid u).1 = none ∧
      lookupPost (unlike (like s pid u).2 pid u).2 pid = some p) := by
  have inv := reachable_invariant hr
  constructor
  · intro p hp
    rw [inv.likesCountEq p hp]
    exact Int.natCast_nonneg _
  · intro u pid p hw hp hany
    rcases Option.isSome_iff_exists.mp hw with ⟨w, hwlook⟩
    obtain ⟨hwmem, hwid⟩ := lookupUser_mem hwlook
    have hu : ¬ u = "" := fun h => inv.userIdNe w hwmem (hwid.trans h)
    obtain ⟨hpmem, hpid⟩ := lookupPost_mem hp
    have hlike := like_success hu hp hw hany
    have hg1 : ∀ q : Post,
        ((if (q.id == pid) = true then { q with likesCount := q.likesCount + 1 } else q) : Post).id
          = q.id := by
      intro q
      by_cases hq : (q.id == pid) = true
      · rw [if_pos hq]
      · rw [if_neg hq]
    have hg2 : ∀ q : Post,
        ((if (q.id == pid) = true then { q with likesCount := max 0 (q.likesCount - 1) } else q) : Post).id
          = q.id := by
      intro q
      by_cases hq : (q.id == pid) = true
      · rw [if_pos hq]
      · rw [if_neg hq]
    have hs1eq : (like s pid u).2 = { s with
        likes := s.likes ++ [⟨u, pid⟩]
        posts := s.posts.map (fun q =>
          if q.id == pid then { q with likesCount := q.likesCount + 1 } else q) } := by
      rw [hlike]
    have hpbeq : (p.id == pid) = true := by rw [beq_iff_eq]; exact hpid
    have hupd1 : lookupPost (like s pid u).2 pid
        = some { p with likesCount := p.likesCount + 1 } := by
      rw [hs1eq, lookupPost]
      show ((s.posts.map (fun q =>
        if q.id == pid then { q with likesCount := q.likesCount + 1 } else q)).find?
          (fun q => q.id == pid)) = _
      rw [find?_map_id_preserving s.posts pid _ hg1]
      have hfind : s.posts.find? (fun q => q.id == pid) = some p := hp
      rw [hfind]
      show some (if (p.id == pid) = true
          then { p with likesCount := p.likesCount + 1 } else p) = _
      rw [if_pos hpbeq]
    have hedge : (⟨u, pid⟩ : Like) ∈ (like s pid u).2.likes := by
      rw [hs1eq]
      exact List.mem_append_right _ (List.mem_singleton.mpr rfl)
    have hunlike := unlike_success hu hupd1 hedge
    refine ⟨by rw [hlike], by rw [hunlike], ?_⟩
    rw [hunlike]
    show lookupPost { (like s pid u).2 with
        likes := (like s pid u).2.likes.erase ⟨u, pid⟩
        posts := (like s pid u).2.posts.map (fun q =>
          if q.id == pid then { q with likesCount := max 0 (q.likesCount - 1) } else q) } pid
      = some p
    rw [lookupPost]
    show (((like s pid u).2.posts.map (fun q =>
      if q.id == pid then { q with likesCount := max 0 (q.likesCount - 1) } else q)).find?
        (fun q => q.id == pid)) = _
    rw [find?_map_id_preserving _ pid _ hg2]
    have hfind1 : (like s pid u).2.posts.find? (fun q => q.id == pid)
        = some { p with likesCount := p.likesCount + 1 } := hupd1
    rw [hfind1, Option.map_some']
    have hid1 : (({ p with likesCount := p.likesCount + 1 } : Post).id == pid) = true := hpbeq
    have hmax2 : max 0 (p.likesCount + 1 - 1) = p.likesCount := by
      have h0 : (0 : Int) ≤ p.likesCount := by
        rw [inv.likesCountEq p hpmem]
        exact Int.natCast_nonneg _
      omega
    have hmax3 : max 0 p.likesCount = p.likesCount := by omega
    have heta : ({ p with likesCount := p.likesCount } : Post) = p := rfl
    simp [hid1, hmax2, hmax3, heta]

/-- C7: failed relationship mutations leave the store unchanged: in every
reachable store, following an already-present pair fails with the
duplicate-follow 400 error and returns the store exactly as before, and
unfollowing an absent pair (with both ids supplied) fails with 404 and
returns the store exactly as before. -/
theorem failed_mutations_unchanged (s : Store) (hr : Reachable s) :
    (∀ a b : String, (⟨a, b⟩ : Follow) ∈ s.follows →
      follow s a b = (some (ApiErr.badRequest "already following this user"), s)) ∧
    (∀ a b : String, ¬ a = "" → ¬ b = "" → (⟨a, b⟩ : Follow) ∉ s.follows →
      unfollow s a b = (some (ApiErr.notFound "follow relationship not found"), s)) := by
  have inv := reachable_invariant hr
  constructor
  · intro a b hmem
    have hne : ¬ a = b := inv.followIrrefl _ hmem
    have hamem : a ∈ s.users.map User.id := inv.followerMem _ hmem
    have hbmem : b ∈ s.users.map User.id := inv.followeeMem _ hmem
    have ha0 : ¬ a = "" := by
      rw [List.mem_map] at hamem
      obtain ⟨w, hwm, hwid⟩ := hamem
      exact fun h => inv.userIdNe w hwm (hwid.trans h)
    have hb0 : ¬ b = "" := by
      rw [List.mem_map] at hbmem
      obtain ⟨w, hwm, hwid⟩ := hbmem
      exact fun h => inv.userIdNe w hwm (hwid.trans h)
    have hsa : (lookupUser s a).isNone = false := by
      have hx := lookupUser_isSome_iff.mpr (inv.followerMem _ hmem)
      cases hopt : lookupUser s a
      · rw [hopt] at hx
        cases hx
      · rfl
    have hsb : (lookupUser s b).isNone = false := by
      have hx := lookupUser_isSome_iff.mpr (inv.followeeMem _ hmem)
      cases hopt : lookupUser s b
      · rw [hopt] at hx
        cases hx
      · rfl
    have hany : (s.follows.any (fun f => f.followerId == a && f.followeeId == b)) = true :=
      follow_any_of_mem hmem
    rw [follow, if_neg (by push_neg; exact ⟨ha0, hb0⟩), if_neg hne]
    simp only [hsa, hsb, hany, Bool.false_eq_true, if_false, if_true]
  · intro a b ha0 hb0 hnot
    have hany : (s.follows.any (fun f => f.followerId == a && f.followeeId == b)) = false := by
      rw [← Bool.not_eq_true]
      exact fun h => hnot (follow_mem_of_any h)
    rw [unfollow, if_neg (by push_neg; exact ⟨ha0, hb0⟩),
      if_pos (by rw [hany]; exact Bool.false_ne_true)]

/-! ### Witnesses: the claim theorems applied at concrete reachable stores -/

/-- Witness for C1 at the three-user store sABC and user a. -/
theorem suggest_excludes_and_covers_witness :
    (∀ e ∈ computeSuggestions sABC "a", ∃ usr, e.1 = some usr ∧ usr ∈ sABC.users ∧
        usr.id ≠ "a" ∧ usr.id ∉ followeesOf sABC "a") ∧
    (∀ usr ∈ sABC.users, usr.id ≠ "a" → usr.id ∉ followeesOf sABC "a" →
        (computeSuggestions sABC "a").countP
          (fun e => e.1.map User.id == some usr.id) = 1) ∧
    (∀ e ∈ computeSuggestions sABC "a", 0 ≤ e.2) ∧
    (computeSuggestions sABC "a").Pairwise (fun x y => y.2 ≤ x.2) :=
  suggest_excludes_and_covers sABC "a" reach_sABC (by decide)

/-- Witness for C2: the single suggestion entry of sABC for user a carries
the 2-hop path count of its user. -/
theorem mutualCount_counts_paths_witness :
    ((lookupUser sABC "c", 1) : Option User × Nat).2
      = mutualPathCount sABC "a" (⟨"c", "carol", "Carol", "", none, 3⟩ : User).id :=
  mutualCount_counts_paths.1 sABC "a" reach_sABC (lookupUser sABC "c", 1) (by decide)
    ⟨"c", "carol", "Carol", "", none, 3⟩ (by decide)

/-- Witness for C3 at the liked-post store. -/
theorem likesCount_matches_edges_witness :
    (⟨"p1", "a", "hi", none, none, 10, 1⟩ : Post).likesCount
      = (sLike.likes.countP
          (fun l => l.postId == (⟨"p1", "a", "hi", none, none, 10, 1⟩ : Post).id) : Int) :=
  likesCount_matches_edges sLike reach_sLike ⟨"p1", "a", "hi", none, none, 10, 1⟩ (by decide)

/-- Witness for C4 at the seeded store and user eve. -/
theorem feed_exact_followed_sorted_witness :
    ((buildFeed (seedStore 0) "user-eve-0005").map Prod.fst).Perm
        ((seedStore 0).posts.filter
          (fun p => decide (p.authorId ∈ followeesOf (seedStore 0) "user-eve-0005"))) ∧
    (∀ e ∈ buildFeed (seedStore 0) "user-eve-0005", e.1.authorId ≠ "user-eve-0005") ∧
    (buildFeed (seedStore 0) "user-eve-0005").Pairwise
      (fun x y => y.1.createdAt ≤ x.1.createdAt) :=
  feed_exact_followed_sorted (seedStore 0) "user-eve-0005" (Reachable.seeded 0) (by decide)

/-- Witness for C5: liking then unliking post p1 by user b restores the post
record exactly. -/
theorem like_unlike_roundtrip_witness :
    (like sPost "p1" "b").1 = none ∧
    (unlike (like sPost "p1" "b").2 "p1" "b").1 = none ∧
    lookupPost (unlike (like sPost "p1" "b").2 "p1" "b").2 "p1"
      = some ⟨"p1", "a", "hi", none, none, 10, 0⟩ :=
  (like_unlike_roundtrip sPost reach_sPost).2 "b" "p1"
    ⟨"p1", "a", "hi", none, none, 10, 0⟩ (by decide) (by decide) (by decide)

/-- Witness for C6 at the seeded store and user alice. -/
theorem counts_agree_with_resolved_lists_witness :
    followerCount (seedStore 0) "user-alice-0001"
        = (followersOf (seedStore 0) "user-alice-0001").length ∧
    followingCount (seedStore 0) "user-alice-0001"
        = (followingOf (seedStore 0) "user-alice-0001").length :=
  counts_agree_with_resolved_lists (seedStore 0) "user-alice-0001"
    (Reachable.seeded 0) (by decide)

/-- Witness for C7: re-following the existing edge (a, b) in sAB fails with
the duplicate-follow error and leaves the store untouched. -/
theorem failed_mutations_unchanged_witness :
    follow sAB "a" "b" = (some (ApiErr.badRequest "already following this user"), sAB) :=
  (failed_mutations_unchanged sAB reach_sAB).1 "a" "b" (by decide)

/-- Witness for C8 at sABC. -/
theorem follow_edges_invariant_witness :
    (∀ f ∈ sABC.follows, f.followerId ≠ f.followeeId) ∧
    (sABC.follows.map (fun f => (f.followerId, f.followeeId))).Nodup ∧
    (∀ f ∈ sABC.follows, f.followerId ∈ sABC.users.map User.id ∧
      f.followeeId ∈ sABC.users.map User.id) :=
  follow_edges_invariant sABC reach_sABC

/-- Witness for C9: user a following themselves in sA fails with the
self-follow validation error. -/
theorem self_follow_validation_witness :
    follow sA "a" "a" = (some (ApiErr.badRequest "a user cannot follow themselves"), sA) :=
  self_follow_validation sA "a" reach_sA (by decide)
